import Mathlib

/-!
Shallow embedding of the baseball rules engine (`src/baseball/{lineup,
baserunners, pa, inning, game}.rs`): the count engine, the baserunner and
play-outcome model, the half-inning engine and the game engine, followed by
theorems settling the specification claims about them.

The source's numeric run-count alias (`Runs`) lives in the missing
`baseball/core` module; following the spec, which treats run and score
totals as nonnegative counters that are only ever added to, it is
modelled as `Nat` throughout.
-/

/-- `lineup.rs`: the nine batting-order slots. -/
inductive BattingPosition where
  | first | second | third | fourth | fifth | sixth | seventh | eighth | ninth
  deriving DecidableEq, Repr

/-- `BattingPosition::next`, wrapping ninth back to first. -/
def BattingPosition.next : BattingPosition → BattingPosition
  | .first => .second
  | .second => .third
  | .third => .fourth
  | .fourth => .fifth
  | .fifth => .sixth
  | .sixth => .seventh
  | .seventh => .eighth
  | .eighth => .ninth
  | .ninth => .first

/-- `BattingPosition::as_number`. -/
def BattingPosition.as_number : BattingPosition → Nat
  | .first => 1
  | .second => 2
  | .third => 3
  | .fourth => 4
  | .fifth => 5
  | .sixth => 6
  | .seventh => 7
  | .eighth => 8
  | .ninth => 9

/-- `baserunners.rs`: occupancy of the three bases. -/
structure BaserunnerState where
  first : Option BattingPosition
  second : Option BattingPosition
  third : Option BattingPosition
  deriving DecidableEq, Repr

/-- `BaserunnerState::new`. -/
def BaserunnerState.new : BaserunnerState := ⟨none, none, none⟩

/-- `BaserunnerState::empty`. -/
def BaserunnerState.empty : BaserunnerState := BaserunnerState.new

/-- `BaserunnerState::set_first`. -/
def BaserunnerState.set_first (st : BaserunnerState) (runner : Option BattingPosition) :
    BaserunnerState :=
  { st with first := runner }

/-- `BaserunnerState::set_second`. -/
def BaserunnerState.set_second (st : BaserunnerState) (runner : Option BattingPosition) :
    BaserunnerState :=
  { st with second := runner }

/-- `BaserunnerState::set_third`. -/
def BaserunnerState.set_third (st : BaserunnerState) (runner : Option BattingPosition) :
    BaserunnerState :=
  { st with third := runner }

/-- `BaserunnerState::walk`: the batter takes first; the source moves the
runner from first to second and the runner from second to third
unconditionally, and adds a run whenever third was occupied. -/
def BaserunnerState.walk (st : BaserunnerState) (batter : BattingPosition) :
    BaserunnerState × Nat :=
  let s1 := BaserunnerState.new.set_first (some batter)
  let s2 := match st.first with
    | some runner => s1.set_second (some runner)
    | none => s1
  let s3 := match st.second with
    | some runner => s2.set_third (some runner)
    | none => s2
  let runs : Nat := if st.third.isSome then 1 else 0
  (s3, runs)

/-- `BaserunnerState::home_run`: one run for the batter plus one per
occupied base. -/
def BaserunnerState.home_run (st : BaserunnerState) : Nat :=
  1 + (if st.first.isSome then 1 else 0) + (if st.second.isSome then 1 else 0) +
    (if st.third.isSome then 1 else 0)

/-- `baserunners.rs`: the fate of one base on a play. -/
inductive BaseOutcome where
  | forceOut
  | tagOut
  | runner (pos : BattingPosition)
  | none
  deriving DecidableEq, Repr

/-- `BaseOutcome::outs`. -/
def BaseOutcome.outs : BaseOutcome → Nat
  | .forceOut => 1
  | .tagOut => 1
  | _ => 0

/-- `BaseOutcome::as_basrunner` (sic, the source's spelling). -/
def BaseOutcome.as_basrunner : BaseOutcome → Option BattingPosition
  | .runner pos => some pos
  | _ => Option.none

/-- `baserunners.rs`: the outcome at home plate. -/
inductive HomeOutcome where
  | one | two | three | four | none | out
  deriving DecidableEq, Repr

/-- `HomeOutcome::outs`. -/
def HomeOutcome.outs : HomeOutcome → Nat
  | .out => 1
  | _ => 0

/-- `HomeOutcome::runs_scored`. -/
def HomeOutcome.runs_scored : HomeOutcome → Nat
  | .one => 1
  | .two => 2
  | .three => 3
  | .four => 4
  | .none => 0
  | .out => 0

/-- `baserunners.rs`: the resolved consequence of one ball in play. -/
structure PlayOutcome where
  first : BaseOutcome
  second : BaseOutcome
  third : BaseOutcome
  home : HomeOutcome
  deriving DecidableEq, Repr

/-- `PlayOutcome::new`. -/
def PlayOutcome.new (first second third : BaseOutcome) (home : HomeOutcome) : PlayOutcome :=
  ⟨first, second, third, home⟩

/-- `PlayOutcome::groundout`. -/
def PlayOutcome.groundout : PlayOutcome :=
  ⟨.forceOut, .none, .none, .none⟩

/-- `PlayOutcome::scored`: the 16-row match table mapping which of
first/second/third/batter reach home to a `HomeOutcome`, transcribed
row by row from the source. -/
def PlayOutcome.scored (first second third batter : Option BattingPosition) : HomeOutcome :=
  match first, second, third, batter with
  | Option.none, Option.none, Option.none, Option.none => .none
  | Option.none, Option.none, Option.none, some _ => .one
  | Option.none, Option.none, some _, Option.none => .two
  | Option.none, Option.none, some _, some _ => .three
  | Option.none, some _, Option.none, Option.none => .one
  | Option.none, some _, Option.none, some _ => .two
  | Option.none, some _, some _, Option.none => .two
  | Option.none, some _, some _, some _ => .three
  | some _, Option.none, Option.none, Option.none => .one
  | some _, Option.none, Option.none, some _ => .two
  | some _, Option.none, some _, Option.none => .two
  | some _, Option.none, some _, some _ => .three
  | some _, some _, Option.none, Option.none => .two
  | some _, some _, Option.none, some _ => .three
  | some _, some _, some _, Option.none => .three
  | some _, some _, some _, some _ => .four

/-- `PlayOutcome::single`. -/
def PlayOutcome.single (baserunners : BaserunnerState) (batter : BattingPosition) :
    PlayOutcome :=
  { first := .runner batter
    second := match baserunners.first with
      | some r => .runner r
      | Option.none => .none
    third := match baserunners.second with
      | some r => .runner r
      | Option.none => .none
    home := PlayOutcome.scored none none baserunners.third none }

/-- `PlayOutcome::double`. -/
def PlayOutcome.double (baserunners : BaserunnerState) (batter : BattingPosition) :
    PlayOutcome :=
  { first := .none
    second := .runner batter
    third := match baserunners.first with
      | some r => .runner r
      | Option.none => .none
    home := PlayOutcome.scored none baserunners.second baserunners.third none }

/-- `PlayOutcome::triple`. -/
def PlayOutcome.triple (baserunners : BaserunnerState) (batter : BattingPosition) :
    PlayOutcome :=
  { first := .none
    second := .none
    third := .runner batter
    home := PlayOutcome.scored baserunners.first baserunners.second baserunners.third none }

/-- `PlayOutcome::homerun`. -/
def PlayOutcome.homerun (baserunners : BaserunnerState) (batter : BattingPosition) :
    PlayOutcome :=
  { first := .none
    second := .none
    third := .none
    home :=
      PlayOutcome.scored baserunners.first baserunners.second baserunners.third (some batter) }

/-- `PlayOutcome::outs`. -/
def PlayOutcome.outs (po : PlayOutcome) : Nat :=
  po.first.outs + po.second.outs + po.third.outs + po.home.outs

/-- `PlayOutcome::baserunners`. -/
def PlayOutcome.baserunners (po : PlayOutcome) : BaserunnerState :=
  ⟨po.first.as_basrunner, po.second.as_basrunner, po.third.as_basrunner⟩

/-- `PlayOutcome::runs_scored`. -/
def PlayOutcome.runs_scored (po : PlayOutcome) : Nat :=
  po.home.runs_scored

/-- `pa.rs`: the bounded ball counter. -/
inductive Balls where
  | zero | one | two | three
  deriving DecidableEq, Repr

/-- `pa.rs`: the bounded strike counter. -/
inductive Strikes where
  | zero | one | two
  deriving DecidableEq, Repr

/-- `pa.rs`: the (balls, strikes) count. -/
structure Count where
  balls : Balls
  strikes : Strikes
  deriving DecidableEq, Repr

/-- `Count::new`. -/
def Count.new (balls : Balls) (strikes : Strikes) : Count := ⟨balls, strikes⟩

/-- `pa.rs`: result of advancing a count by one pitch. -/
inductive CountAdvance where
  | inProgress (count : Count)
  | strikeout
  | walk
  deriving DecidableEq, Repr

/-- `pa.rs`: the sole external input to the engine. -/
inductive PitchOutcome where
  | ball
  | strike
  | foul
  | inPlay (outcome : PlayOutcome)
  | homeRun
  | hitByPitch
  deriving DecidableEq, Repr

/-- `Count::advance_ball`. -/
def Count.advance_ball (c : Count) : CountAdvance :=
  match c.balls with
  | .zero => .inProgress (Count.new .one c.strikes)
  | .one => .inProgress (Count.new .two c.strikes)
  | .two => .inProgress (Count.new .three c.strikes)
  | .three => .walk

/-- `Count::advance_strike`. -/
def Count.advance_strike (c : Count) : CountAdvance :=
  match c.strikes with
  | .zero => .inProgress (Count.new c.balls .one)
  | .one => .inProgress (Count.new c.balls .two)
  | .two => .strikeout

/-- `Count::advance_foul`: a foul with two strikes does not advance. -/
def Count.advance_foul (c : Count) : CountAdvance :=
  match c.strikes with
  | .zero => .inProgress (Count.new c.balls .one)
  | .one => .inProgress (Count.new c.balls .two)
  | .two => .inProgress c

/-- `Count::advance`. -/
def Count.advance (c : Count) (outcome : PitchOutcome) : CountAdvance :=
  match outcome with
  | .ball => c.advance_ball
  | .strike => c.advance_strike
  | .foul => c.advance_foul
  | _ => .inProgress c

/-- `pa.rs`: a plate appearance wraps a count. -/
structure PlateAppearance where
  count : Count
  deriving DecidableEq, Repr

/-- `PlateAppearance::new` (the default count is 0-0). -/
def PlateAppearance.new : PlateAppearance := ⟨Count.new .zero .zero⟩

/-- `PlateAppearance::with_count`. -/
def PlateAppearance.with_count (count : Count) : PlateAppearance := ⟨count⟩

/-- `pa.rs`: result of advancing a plate appearance by one pitch. -/
inductive PlateAppearanceResult where
  | inProgress (pa : PlateAppearance)
  | inPlay (outcome : PlayOutcome)
  | walk
  | strikeout
  | hitByPitch
  | homeRun
  deriving DecidableEq, Repr

/-- `PlateAppearance::advance`. -/
def PlateAppearance.advance (pa : PlateAppearance) (outcome : PitchOutcome) :
    PlateAppearanceResult :=
  match outcome with
  | .ball | .strike | .foul =>
    match pa.count.advance outcome with
    | .inProgress count => .inProgress (PlateAppearance.with_count count)
    | .strikeout => .strikeout
    | .walk => .walk
  | .inPlay po => .inPlay po
  | .homeRun => .homeRun
  | .hitByPitch => .hitByPitch

/-- `PlateAppearanceResult::advance`: terminal results ignore the pitch. -/
def PlateAppearanceResult.advance (r : PlateAppearanceResult) (outcome : PitchOutcome) :
    PlateAppearanceResult :=
  match r with
  | .inProgress pa => pa.advance outcome
  | _ => r

/-- `inning.rs`: which half of the inning. -/
inductive InningHalf where
  | top
  | bottom
  deriving DecidableEq, Repr

/-- `inning.rs`: the saturating out counter. -/
inductive Outs where
  | zero | one | two | three
  deriving DecidableEq, Repr

/-- `Outs::add_out`, saturating at three. -/
def Outs.add_out : Outs → Outs
  | .zero => .one
  | .one => .two
  | .two => .three
  | .three => .three

/-- `Outs::as_number`. -/
def Outs.as_number : Outs → Nat
  | .zero => 0
  | .one => 1
  | .two => 2
  | .three => 3

/-- `inning.rs`: state of one half-inning in progress. -/
structure HalfInning where
  half : InningHalf
  outs : Outs
  current_batter : BattingPosition
  current_pa : PlateAppearance
  runs_scored : Nat
  baserunners : BaserunnerState
  deriving DecidableEq, Repr

/-- `HalfInning::new`. -/
def HalfInning.new (half : InningHalf) (starting_batter : BattingPosition) : HalfInning :=
  { half := half
    outs := .zero
    current_batter := starting_batter
    current_pa := PlateAppearance.new
    runs_scored := 0
    baserunners := BaserunnerState.new }

/-- `inning.rs`: summary of a completed half-inning. -/
structure HalfInningSummary where
  runs_scored : Nat
  deriving DecidableEq, Repr

/-- `inning.rs`: result of advancing a half-inning by one pitch. -/
inductive HalfInningAdvance where
  | inProgress (hi : HalfInning)
  | complete (summary : HalfInningSummary)
  deriving DecidableEq, Repr

/-- `HalfInning::set_outs`. -/
def HalfInning.set_outs (hi : HalfInning) (outs : Outs) : HalfInning :=
  { hi with outs := outs }

/-- `HalfInning::advance_batter`: next slot in the order, fresh plate
appearance, still in progress. -/
def HalfInning.advance_batter (hi : HalfInning) : HalfInningAdvance :=
  .inProgress { hi with current_batter := hi.current_batter.next,
                        current_pa := PlateAppearance.new }

/-- `HalfInning::add_runs`. -/
def HalfInning.add_runs (hi : HalfInning) (runs : Nat) : HalfInning :=
  { hi with runs_scored := hi.runs_scored + runs }

/-- `HalfInning::with_baserunners`. -/
def HalfInning.with_baserunners (hi : HalfInning) (baserunners : BaserunnerState) :
    HalfInning :=
  { hi with baserunners := baserunners }

/-- The loop body of `HalfInning::increment_outs`: add one out per
iteration, returning the completion summary the instant three is reached. -/
def HalfInning.outs_loop (hi : HalfInning) (outs : Outs) : Nat → HalfInningAdvance
  | 0 => (hi.set_outs outs).advance_batter
  | n + 1 =>
    let outs1 := outs.add_out
    if outs1 = Outs.three then .complete ⟨hi.runs_scored⟩
    else hi.outs_loop outs1 n

/-- `HalfInning::increment_outs`. -/
def HalfInning.increment_outs (hi : HalfInning) (n : Nat) : HalfInningAdvance :=
  hi.outs_loop hi.outs n

/-- `HalfInning::advance`. -/
def HalfInning.advance (hi : HalfInning) (outcome : PitchOutcome) : HalfInningAdvance :=
  match hi.current_pa.advance outcome with
  | .strikeout => hi.increment_outs 1
  | .inPlay po =>
    ((hi.add_runs po.runs_scored).with_baserunners po.baserunners).increment_outs po.outs
  | .walk =>
    let wr := hi.baserunners.walk hi.current_batter
    ((hi.add_runs wr.2).with_baserunners wr.1).advance_batter
  | .hitByPitch =>
    let wr := hi.baserunners.walk hi.current_batter
    ((hi.add_runs wr.2).with_baserunners wr.1).advance_batter
  | .homeRun =>
    ((hi.add_runs hi.baserunners.home_run).with_baserunners BaserunnerState.empty).advance_batter
  | .inProgress pa => .inProgress { hi with current_pa := pa }

/-- `HalfInningAdvance::advance`: a completed half-inning ignores the pitch. -/
def HalfInningAdvance.advance (r : HalfInningAdvance) (outcome : PitchOutcome) :
    HalfInningAdvance :=
  match r with
  | .inProgress hi => hi.advance outcome
  | .complete _ => r

/-- `game.rs`: inning number, first through ninth then extras. -/
inductive InningNumber where
  | first | second | third | fourth | fifth | sixth | seventh | eighth | ninth
  | extra (n : Nat)
  deriving DecidableEq, Repr

/-- `InningNumber::next`. -/
def InningNumber.next : InningNumber → InningNumber
  | .first => .second
  | .second => .third
  | .third => .fourth
  | .fourth => .fifth
  | .fifth => .sixth
  | .sixth => .seventh
  | .seventh => .eighth
  | .eighth => .ninth
  | .ninth => .extra 10
  | .extra n => .extra (n + 1)

/-- `game.rs`: the cumulative score. -/
structure GameScore where
  away : Nat
  home : Nat
  deriving DecidableEq, Repr

/-- `GameScore::new`. -/
def GameScore.new : GameScore := ⟨0, 0⟩

/-- `GameScore::add_away_runs`. -/
def GameScore.add_away_runs (s : GameScore) (runs : Nat) : GameScore :=
  { s with away := s.away + runs }

/-- `GameScore::add_home_runs`. -/
def GameScore.add_home_runs (s : GameScore) (runs : Nat) : GameScore :=
  { s with home := s.home + runs }

/-- `game.rs`: which team won. -/
inductive GameWinner where
  | away
  | home
  deriving DecidableEq, Repr

/-- `GameScore::winner`: `none` on a tie. -/
def GameScore.winner (s : GameScore) : Option GameWinner :=
  if s.home < s.away then some .away
  else if s.away < s.home then some .home
  else none

/-- `game.rs`: the final record of a completed game. -/
structure GameSummary where
  final_score : GameScore
  innings_played : InningNumber
  winner : GameWinner
  deriving DecidableEq, Repr

/-- `game.rs`: which half is live or just ended. -/
inductive GameState where
  | inning (half : InningHalf)
  | inningEnd (half : InningHalf)
  | complete
  deriving DecidableEq, Repr

/-- `GameState::is_bottom`. -/
def GameState.is_bottom : GameState → Bool
  | .inning .bottom => true
  | _ => false

/-- `game.rs`: the full game state. -/
structure Game where
  current_inning : InningNumber
  state : GameState
  score : GameScore
  current_half_inning : HalfInning
  away_batting_order : BattingPosition
  home_batting_order : BattingPosition
  deriving DecidableEq, Repr

/-- `Game::new`: inning 1, top, 0-0, both orders leading off at slot one. -/
def Game.new : Game :=
  { current_inning := .first
    state := .inning .top
    score := GameScore.new
    current_half_inning := HalfInning.new .top .first
    away_batting_order := .first
    home_batting_order := .first }

/-- `game.rs`: result of advancing a game by one pitch. -/
inductive GameResult where
  | inProgress (game : Game)
  | complete (summary : GameSummary)
  deriving DecidableEq, Repr

/-- `Game::complete_half_inning`: fold the pending runs into the batting
team's score and move to the matching `InningEnd` tag. -/
def Game.complete_half_inning (g : Game) (pending_runs : Nat) : Game :=
  match g.state with
  | .inning .top =>
    { g with score := g.score.add_away_runs pending_runs, state := .inningEnd .top }
  | .inning .bottom =>
    { g with score := g.score.add_home_runs pending_runs, state := .inningEnd .bottom }
  | _ => g

/-- `Game::should_end_game`. -/
def Game.should_end_game (g : Game) (pending_runs : Nat) : Bool :=
  match g.current_inning with
  | .first | .second | .third | .fourth | .fifth | .sixth | .seventh | .eighth => false
  | .ninth =>
    match g.state with
    | .inningEnd .top => decide (g.score.away < g.score.home)
    | .inningEnd .bottom => decide (g.score.home ≠ g.score.away)
    | .inning .top => false
    | .inning .bottom => decide (g.score.away < g.score.home + pending_runs)
    | .complete => true
  | .extra _ =>
    match g.state with
    | .inningEnd .top => false
    | .inningEnd .bottom => decide (g.score.home ≠ g.score.away)
    | .inning _ => false
    | .complete => true

/-- `Game::start_next_half`: top ends into the bottom of the same inning,
bottom ends into the top of the next, each half re-seeded with that team's
fixed starting slot. -/
def Game.start_next_half (g : Game) : Game :=
  match g.state with
  | .inningEnd .top =>
    { g with current_half_inning := HalfInning.new .bottom g.home_batting_order,
             state := .inning .bottom }
  | .inningEnd .bottom =>
    { g with current_inning := g.current_inning.next,
             current_half_inning := HalfInning.new .top g.away_batting_order,
             state := .inning .top }
  | _ => g

/-- `Game::is_bottom_of_ninth`. -/
def Game.is_bottom_of_ninth (g : Game) : Bool :=
  decide (g.current_inning = InningNumber.ninth) && g.state.is_bottom

/-- The `winner().expect(..)` + `GameSummary::new` tail of `Game::advance`:
`none` models the panic on a tied score. -/
def Game.finalize (g : Game) : Option GameResult :=
  match g.score.winner with
  | some w => some (.complete ⟨g.score, g.current_inning, w⟩)
  | none => none

/-- `Game::advance`. -/
def Game.advance (g : Game) (outcome : PitchOutcome) : Option GameResult :=
  match g.current_half_inning.advance outcome with
  | .inProgress half_inning =>
    let g1 : Game := { g with current_half_inning := half_inning }
    let pending_runs := half_inning.runs_scored
    if g1.is_bottom_of_ninth && g1.should_end_game pending_runs then
      (g1.complete_half_inning pending_runs).finalize
    else
      some (.inProgress g1)
  | .complete summary =>
    let g1 := g.complete_half_inning summary.runs_scored
    if g1.should_end_game 0 then
      g1.finalize
    else
      some (.inProgress g1.start_next_half)

/-- `GameResult::advance`: a completed game ignores the pitch. -/
def GameResult.advance (r : GameResult) (outcome : PitchOutcome) : Option GameResult :=
  match r with
  | .inProgress g => g.advance outcome
  | .complete s => some (.complete s)

/-- Driving the game one pitch at a time from some starting result;
`none` as soon as any step reaches the modelled panic. -/
def runPitches : GameResult → List PitchOutcome → Option GameResult
  | r, [] => some r
  | r, p :: ps =>
    match r.advance p with
    | some r1 => runPitches r1 ps
    | none => none

/-- A game state reachable from `Game::new` by some pitch sequence while
still in progress. -/
def Game.Reachable (g : Game) : Prop :=
  ∃ ps : List PitchOutcome,
    runPitches (GameResult.inProgress Game.new) ps = some (GameResult.inProgress g)

/-- The inductive invariant of in-progress games: the state tag is always
a live half, and in the bottom of the ninth the home score plus the
half's pending runs never strictly exceeds the away score. -/
def GameInv (g : Game) : Prop :=
  (∃ h, g.state = GameState.inning h) ∧
  (g.current_inning = InningNumber.ninth →
    g.state = GameState.inning InningHalf.bottom →
    g.score.home + g.current_half_inning.runs_scored ≤ g.score.away)

/-! ## Helper lemmas about the out-counting loop -/

/-- If the starting count is below three and at least enough outs arrive to
reach three, the loop returns the completion summary with the accumulated
runs. -/
theorem HalfInning.outs_loop_complete (hi : HalfInning) :
    ∀ (n : Nat) (o : Outs), o ≠ Outs.three → 3 ≤ o.as_number + n →
      hi.outs_loop o n = .complete ⟨hi.runs_scored⟩ := by
  intro n
  induction n with
  | zero =>
    intro o ho hle
    cases o with
    | three => exact absurd rfl ho
    | zero => simp [Outs.as_number] at hle
    | one => simp [Outs.as_number] at hle
    | two => simp [Outs.as_number] at hle
  | succ n ih =>
    intro o ho hle
    by_cases h3 : o.add_out = Outs.three
    · simp [HalfInning.outs_loop, h3]
    · rw [HalfInning.outs_loop]
      simp only [h3, if_false]
      apply ih _ h3
      cases o with
      | three => exact absurd rfl ho
      | zero => simp [Outs.add_out, Outs.as_number] at hle ⊢; omega
      | one => simp [Outs.add_out, Outs.as_number] at hle ⊢; omega
      | two => exact absurd rfl h3

/-- If the outs to add do not reach three, the loop stays in progress with
the summed out count, a rotated batter, a fresh plate appearance, and the
runs and baserunners untouched. -/
theorem HalfInning.outs_loop_progress (hi : HalfInning) :
    ∀ (n : Nat) (o : Outs), o.as_number + n < 3 →
      ∃ hi1, hi.outs_loop o n = .inProgress hi1 ∧
        hi1.outs.as_number = o.as_number + n ∧
        hi1.runs_scored = hi.runs_scored ∧
        hi1.baserunners = hi.baserunners := by
  intro n
  induction n with
  | zero =>
    intro o _
    exact ⟨_, rfl, rfl, rfl, rfl⟩
  | succ n ih =>
    intro o hlt
    have h3 : o.add_out ≠ Outs.three := by
      cases o <;> simp [Outs.add_out, Outs.as_number] at hlt ⊢ <;> omega
    have hcount : (o.add_out).as_number = o.as_number + 1 := by
      cases o <;> simp [Outs.add_out, Outs.as_number] at hlt ⊢
    rw [HalfInning.outs_loop]
    simp only [h3, if_false]
    obtain ⟨hi1, heq, houts, hruns, hbr⟩ := ih o.add_out (by omega)
    exact ⟨hi1, heq, by rw [houts, hcount]; omega, hruns, hbr⟩

/-! ## Claim theorems -/

/-- C1 counterexample: with a runner on third and first empty, `walk`
still credits one run — the claim says such an unforced runner must not
score (runs = 0). -/
theorem walk_unforced_third_scores :
    ((BaserunnerState.mk Option.none Option.none (some BattingPosition.first)).walk
        BattingPosition.second).2 = 1 ∧
    ((BaserunnerState.mk Option.none Option.none (some BattingPosition.first)).walk
        BattingPosition.second).2 ≠ 0 := by
  constructor
  · rfl
  · decide

/-- C1 amended: `BaserunnerState::walk` puts the batter on first and
advances every runner one base unconditionally — the prior first-runner to
second, the prior second-runner to third — and scores exactly one run
whenever third was occupied, forced or not (so bases loaded still scores 1
and leaves the bases loaded, and empty bases still score 0 leaving only
first occupied). -/
theorem walk_advances_all_runners (st : BaserunnerState) (b : BattingPosition) :
    (st.walk b).1.first = some b ∧
    (st.walk b).1.second = st.first ∧
    (st.walk b).1.third = st.second ∧
    (st.walk b).2 = (if st.third.isSome then 1 else 0) := by
  obtain ⟨f, s, t⟩ := st
  cases f <;> cases s <;>
    simp [BaserunnerState.walk, BaserunnerState.new, BaserunnerState.set_first,
      BaserunnerState.set_second, BaserunnerState.set_third]

/-- C2: at the failing input — a lone runner on third, first and second
empty — `single`, `double` and `triple` all report two runs scored, where
the documented advancement policy implies exactly one (only the
third-runner can reach home; the batter stops at first, second or third).
The two `(None, None, Some _, _)` rows of `PlayOutcome::scored` credit one
more run than the count of advancing runners. -/
theorem hit_with_lone_third_runner_scores_two :
    (PlayOutcome.single (BaserunnerState.mk Option.none Option.none
        (some BattingPosition.third)) BattingPosition.first).runs_scored = 2 ∧
    (PlayOutcome.double (BaserunnerState.mk Option.none Option.none
        (some BattingPosition.third)) BattingPosition.first).runs_scored = 2 ∧
    (PlayOutcome.triple (BaserunnerState.mk Option.none Option.none
        (some BattingPosition.third)) BattingPosition.first).runs_scored = 2 := by
  refine ⟨rfl, rfl, rfl⟩

/-- C6: from an in-progress half-inning with fewer than three outs, an
in-play outcome worth `k` outs completes the half-inning immediately with
run total "accumulated plus this play's runs" whenever the outs reach
three (extra outs discarded by saturation), and otherwise stays in
progress with exactly the summed out count. -/
theorem halfinning_inplay_out_accounting (hi : HalfInning) (po : PlayOutcome)
    (ho : hi.outs ≠ Outs.three) :
    (3 ≤ hi.outs.as_number + po.outs →
      hi.advance (.inPlay po) = .complete ⟨hi.runs_scored + po.runs_scored⟩) ∧
    (hi.outs.as_number + po.outs < 3 →
      ∃ hi1, hi.advance (.inPlay po) = .inProgress hi1 ∧
        hi1.outs.as_number = hi.outs.as_number + po.outs) := by
  have hadv : hi.advance (.inPlay po)
      = ((hi.add_runs po.runs_scored).with_baserunners po.baserunners).increment_outs
          po.outs := rfl
  constructor
  · intro h
    rw [hadv]
    exact HalfInning.outs_loop_complete _ po.outs hi.outs ho h
  · intro h
    rw [hadv]
    obtain ⟨hi1, heq, houts, _, _⟩ := HalfInning.outs_loop_progress
      ((hi.add_runs po.runs_scored).with_baserunners po.baserunners) po.outs hi.outs h
    exact ⟨hi1, heq, houts⟩

/-- C6 witness: with two outs, a one-out groundout completes the
half-inning rather than leaving it at three-plus outs. -/
theorem halfinning_inplay_out_accounting_witness :
    (HalfInning.mk InningHalf.top Outs.two BattingPosition.first PlateAppearance.new 0
        BaserunnerState.new).advance (PitchOutcome.inPlay PlayOutcome.groundout)
      = HalfInningAdvance.complete ⟨0⟩ :=
  (halfinning_inplay_out_accounting _ _ (by decide)).1 (by decide)

/-- C7: from at most one out, a groundout records exactly one out, leaves
the run total untouched, and wholesale-replaces the baserunners with empty
bases — every pre-play runner disappears without scoring, because the
`groundout` constructor ignores the pre-play state. -/
theorem groundout_records_one_out_and_clears_bases (hi : HalfInning)
    (ho : hi.outs = Outs.zero ∨ hi.outs = Outs.one) :
    ∃ hi1, hi.advance (PitchOutcome.inPlay PlayOutcome.groundout) = .inProgress hi1 ∧
      hi1.outs.as_number = hi.outs.as_number + 1 ∧
      hi1.baserunners = BaserunnerState.new ∧
      hi1.runs_scored = hi.runs_scored := by
  have hadv : hi.advance (.inPlay PlayOutcome.groundout)
      = ((hi.add_runs 0).with_baserunners
          ⟨Option.none, Option.none, Option.none⟩).increment_outs 1 := rfl
  rw [hadv]
  obtain ⟨hi1, heq, houts, hruns, hbr⟩ := HalfInning.outs_loop_progress
    ((hi.add_runs 0).with_baserunners ⟨Option.none, Option.none, Option.none⟩) 1 hi.outs
    (by rcases ho with h | h <;> simp [h, Outs.as_number])
  exact ⟨hi1, heq, houts, hbr.trans rfl, hruns.trans rfl⟩

/-- C7 witness: a groundout on a fresh half-inning with loaded bases
yields one out and empty bases. -/
theorem groundout_clears_loaded_bases_witness :
    ∃ hi1, (HalfInning.mk InningHalf.top Outs.zero BattingPosition.fourth PlateAppearance.new 0
        (BaserunnerState.mk (some BattingPosition.first) (some BattingPosition.second)
          (some BattingPosition.third))).advance (PitchOutcome.inPlay PlayOutcome.groundout)
        = .inProgress hi1 ∧
      hi1.outs.as_number = (HalfInning.mk InningHalf.top Outs.zero BattingPosition.fourth
        PlateAppearance.new 0 (BaserunnerState.mk (some BattingPosition.first)
          (some BattingPosition.second) (some BattingPosition.third))).outs.as_number + 1 ∧
      hi1.baserunners = BaserunnerState.new ∧
      hi1.runs_scored = (HalfInning.mk InningHalf.top Outs.zero BattingPosition.fourth
        PlateAppearance.new 0 (BaserunnerState.mk (some BattingPosition.first)
          (some BattingPosition.second) (some BattingPosition.third))).runs_scored :=
  groundout_records_one_out_and_clears_bases _ (Or.inl rfl)

/-- C8: the full count-transition table — a ball below three balls
increments balls keeping strikes, a ball at three balls walks; a strike
below two strikes increments strikes keeping balls, a strike at two
strikes is a strikeout; a foul below two strikes behaves as a strike, and
a foul at two strikes leaves the count completely unchanged. -/
theorem count_advance_rules (c : Count) :
    ((c.balls = Balls.zero → c.advance .ball = .inProgress (Count.new .one c.strikes)) ∧
     (c.balls = Balls.one → c.advance .ball = .inProgress (Count.new .two c.strikes)) ∧
     (c.balls = Balls.two → c.advance .ball = .inProgress (Count.new .three c.strikes)) ∧
     (c.balls = Balls.three → c.advance .ball = .walk)) ∧
    ((c.strikes = Strikes.zero → c.advance .strike = .inProgress (Count.new c.balls .one)) ∧
     (c.strikes = Strikes.one → c.advance .strike = .inProgress (Count.new c.balls .two)) ∧
     (c.strikes = Strikes.two → c.advance .strike = .strikeout)) ∧
    ((c.strikes = Strikes.zero → c.advance .foul = .inProgress (Count.new c.balls .one)) ∧
     (c.strikes = Strikes.one → c.advance .foul = .inProgress (Count.new c.balls .two)) ∧
     (c.strikes = Strikes.two → c.advance .foul = .inProgress c)) := by
  obtain ⟨b, s⟩ := c
  cases b <;> cases s <;> decide

/-- C8 witness: at a full count (3-2), a ball walks, a strike strikes out,
and a foul changes nothing. -/
theorem count_advance_rules_witness :
    (Count.new Balls.three Strikes.two).advance PitchOutcome.ball = CountAdvance.walk ∧
    (Count.new Balls.three Strikes.two).advance PitchOutcome.strike = CountAdvance.strikeout ∧
    (Count.new Balls.three Strikes.two).advance PitchOutcome.foul
      = CountAdvance.inProgress (Count.new Balls.three Strikes.two) :=
  ⟨(count_advance_rules (Count.new Balls.three Strikes.two)).1.2.2.2 rfl,
   (count_advance_rules (Count.new Balls.three Strikes.two)).2.1.2.2 rfl,
   (count_advance_rules (Count.new Balls.three Strikes.two)).2.2.2.2 rfl⟩

/-- C10: every terminal value at each of the three layers — a finished
plate appearance (walk, strikeout, in-play, hit-by-pitch, home run), a
completed half-inning, a completed game — absorbs any further pitch,
returning the identical terminal value. -/
theorem terminal_results_absorb_pitches :
    (∀ p, PlateAppearanceResult.walk.advance p = PlateAppearanceResult.walk) ∧
    (∀ p, PlateAppearanceResult.strikeout.advance p = PlateAppearanceResult.strikeout) ∧
    (∀ po p, (PlateAppearanceResult.inPlay po).advance p = PlateAppearanceResult.inPlay po) ∧
    (∀ p, PlateAppearanceResult.hitByPitch.advance p = PlateAppearanceResult.hitByPitch) ∧
    (∀ p, PlateAppearanceResult.homeRun.advance p = PlateAppearanceResult.homeRun) ∧
    (∀ s p, (HalfInningAdvance.complete s).advance p = HalfInningAdvance.complete s) ∧
    (∀ s p, (GameResult.complete s).advance p = some (GameResult.complete s)) :=
  ⟨fun _ => rfl, fun _ => rfl, fun _ _ => rfl, fun _ => rfl, fun _ => rfl,
   fun _ _ => rfl, fun _ _ => rfl⟩

/-! ## Helper lemmas about finalization -/

/-- Whenever the folded score is not a tie, `finalize` succeeds (the
source's `expect` cannot panic) and the produced winner is on the side
with the strictly larger score. -/
theorem Game.finalize_sound (g : Game) (hne : g.score.away ≠ g.score.home) :
    ∃ w, g.finalize = some (.complete ⟨g.score, g.current_inning, w⟩) ∧
      (w = GameWinner.home ↔ g.score.away < g.score.home) ∧
      (w = GameWinner.away ↔ g.score.home < g.score.away) := by
  unfold Game.finalize GameScore.winner
  rcases Nat.lt_trichotomy g.score.home g.score.away with hlt | heq | hgt
  · refine ⟨.away, ?_, ?_, ?_⟩
    · rw [if_pos hlt]
    · constructor
      · intro h; cases h
      · intro h; exact absurd h (by omega)
    · simp [hlt]
  · exact absurd heq.symm hne
  · refine ⟨.home, ?_, ?_, ?_⟩
    · rw [if_neg (by omega), if_pos hgt]
    · simp [hgt]
    · constructor
      · intro h; cases h
      · intro h; exact absurd h (by omega)

/-- C3: in the bottom of the ninth, any pitch that leaves the half-inning
in progress while the home score plus the half's accumulated runs strictly
exceeds the away score ends the game at that pitch, with winner Home and
the pending runs folded into the final home score. -/
theorem bottom_ninth_walkoff_ends_immediately (g : Game) (p : PitchOutcome) (hi : HalfInning)
    (hninth : g.current_inning = InningNumber.ninth)
    (hbot : g.state = GameState.inning InningHalf.bottom)
    (hadv : g.current_half_inning.advance p = .inProgress hi)
    (hlead : g.score.away < g.score.home + hi.runs_scored) :
    g.advance p = some (GameResult.complete
      ⟨⟨g.score.away, g.score.home + hi.runs_scored⟩, InningNumber.ninth, GameWinner.home⟩) := by
  have hcond : (({ g with current_half_inning := hi } : Game).is_bottom_of_ninth
      && ({ g with current_half_inning := hi } : Game).should_end_game hi.runs_scored)
        = true := by
    simp [Game.is_bottom_of_ninth, Game.should_end_game, GameState.is_bottom, hninth, hbot,
      hlead]
  simp only [Game.advance, hadv, hcond, if_true]
  have h1 : ¬ (g.score.home + hi.runs_scored < g.score.away) := by omega
  simp [Game.complete_half_inning, hbot, Game.finalize, GameScore.winner,
    GameScore.add_home_runs, h1, hlead, hninth]

/-- C3 witness: tied 0-0 in the bottom of the ninth, a leadoff home run
ends the game at once as a 1-0 home walk-off. -/
theorem bottom_ninth_walkoff_witness :
    Game.advance
      (Game.mk InningNumber.ninth (GameState.inning InningHalf.bottom) (GameScore.mk 0 0)
        (HalfInning.new InningHalf.bottom BattingPosition.first)
        BattingPosition.first BattingPosition.first) PitchOutcome.homeRun
      = some (GameResult.complete
          ⟨GameScore.mk 0 1, InningNumber.ninth, GameWinner.home⟩) :=
  bottom_ninth_walkoff_ends_immediately _ _
    (HalfInning.mk InningHalf.bottom Outs.zero BattingPosition.second PlateAppearance.new 1
      BaserunnerState.new) rfl rfl rfl (by decide)

/-- C5: when the active half-inning completes on a pitch, its runs are
folded into the batting team's score, and the game ends exactly when the
just-finished half is the top of the ninth with home strictly ahead, the
bottom of the ninth with the score not tied, or the bottom of an extra
inning with the score not tied; otherwise the next half starts — the
bottom of the same inning after a top, the top of the next inning after a
bottom. -/
theorem halfinning_completion_applies_ending_rules (g : Game) (p : PitchOutcome)
    (h : InningHalf) (s : HalfInningSummary)
    (hstate : g.state = GameState.inning h)
    (hadv : g.current_half_inning.advance p = .complete s) :
    ((g.current_inning = InningNumber.ninth ∧ h = InningHalf.top ∧
        (g.complete_half_inning s.runs_scored).score.away
          < (g.complete_half_inning s.runs_scored).score.home) ∨
     (g.current_inning = InningNumber.ninth ∧ h = InningHalf.bottom ∧
        (g.complete_half_inning s.runs_scored).score.home
          ≠ (g.complete_half_inning s.runs_scored).score.away) ∨
     ((∃ n, g.current_inning = InningNumber.extra n) ∧ h = InningHalf.bottom ∧
        (g.complete_half_inning s.runs_scored).score.home
          ≠ (g.complete_half_inning s.runs_scored).score.away) →
      ∃ w, g.advance p = some (GameResult.complete
        ⟨(g.complete_half_inning s.runs_scored).score, g.current_inning, w⟩)) ∧
    (¬ ((g.current_inning = InningNumber.ninth ∧ h = InningHalf.top ∧
        (g.complete_half_inning s.runs_scored).score.away
          < (g.complete_half_inning s.runs_scored).score.home) ∨
     (g.current_inning = InningNumber.ninth ∧ h = InningHalf.bottom ∧
        (g.complete_half_inning s.runs_scored).score.home
          ≠ (g.complete_half_inning s.runs_scored).score.away) ∨
     ((∃ n, g.current_inning = InningNumber.extra n) ∧ h = InningHalf.bottom ∧
        (g.complete_half_inning s.runs_scored).score.home
          ≠ (g.complete_half_inning s.runs_scored).score.away)) →
      g.advance p = some (GameResult.inProgress
        (g.complete_half_inning s.runs_scored).start_next_half) ∧
      (h = InningHalf.top →
        (g.complete_half_inning s.runs_scored).start_next_half.state
            = GameState.inning InningHalf.bottom ∧
        (g.complete_half_inning s.runs_scored).start_next_half.current_inning
            = g.current_inning) ∧
      (h = InningHalf.bottom →
        (g.complete_half_inning s.runs_scored).start_next_half.state
            = GameState.inning InningHalf.top ∧
        (g.complete_half_inning s.runs_scored).start_next_half.current_inning
            = g.current_inning.next)) := by
  have hg1state : (g.complete_half_inning s.runs_scored).state = GameState.inningEnd h := by
    cases h <;> simp [Game.complete_half_inning, hstate]
  have hg1inn : (g.complete_half_inning s.runs_scored).current_inning = g.current_inning := by
    cases h <;> simp [Game.complete_half_inning, hstate]
  have hiff : ((g.complete_half_inning s.runs_scored).should_end_game 0 = true) ↔
      ((g.current_inning = InningNumber.ninth ∧ h = InningHalf.top ∧
          (g.complete_half_inning s.runs_scored).score.away
            < (g.complete_half_inning s.runs_scored).score.home) ∨
       (g.current_inning = InningNumber.ninth ∧ h = InningHalf.bottom ∧
          (g.complete_half_inning s.runs_scored).score.home
            ≠ (g.complete_half_inning s.runs_scored).score.away) ∨
       ((∃ n, g.current_inning = InningNumber.extra n) ∧ h = InningHalf.bottom ∧
          (g.complete_half_inning s.runs_scored).score.home
            ≠ (g.complete_half_inning s.runs_scored).score.away)) := by
    cases hinn : g.current_inning <;> cases hh : h <;>
      simp [Game.should_end_game, hg1state, hg1inn, hinn, hh]
  constructor
  · intro hcond
    have hend : (g.complete_half_inning s.runs_scored).should_end_game 0 = true :=
      hiff.2 hcond
    have hne : (g.complete_half_inning s.runs_scored).score.away
        ≠ (g.complete_half_inning s.runs_scored).score.home := by
      rcases hcond with ⟨-, -, hlt⟩ | ⟨-, -, hne⟩ | ⟨-, -, hne⟩
      · omega
      · exact Ne.symm hne
      · exact Ne.symm hne
    obtain ⟨w, hw, -, -⟩ := Game.finalize_sound _ hne
    refine ⟨w, ?_⟩
    simp only [Game.advance, hadv, hend, if_true]
    rw [hw, hg1inn]
  · intro hncond
    have hend : (g.complete_half_inning s.runs_scored).should_end_game 0 = false := by
      cases hb : (g.complete_half_inning s.runs_scored).should_end_game 0
      · rfl
      · exact absurd (hiff.1 hb) hncond
    refine ⟨?_, ?_, ?_⟩
    · simp only [Game.advance, hadv, hend, Bool.false_eq_true, if_false]
    · intro hh
      subst hh
      constructor <;> simp [Game.start_next_half, hg1state, hg1inn]
    · intro hh
      subst hh
      constructor <;> simp [Game.start_next_half, hg1state, hg1inn]

/-- C5 witness: a triple play ends the top of the first from a fresh game;
the game does not end, and the bottom of the first starts. -/
theorem halfinning_completion_witness :
    Game.advance Game.new (PitchOutcome.inPlay (PlayOutcome.new BaseOutcome.forceOut
        BaseOutcome.forceOut BaseOutcome.forceOut HomeOutcome.none))
      = some (GameResult.inProgress ((Game.new.complete_half_inning 0).start_next_half)) ∧
    (Game.new.complete_half_inning 0).start_next_half.state
        = GameState.inning InningHalf.bottom ∧
    (Game.new.complete_half_inning 0).start_next_half.current_inning
        = Game.new.current_inning := by
  have h := halfinning_completion_applies_ending_rules Game.new
    (PitchOutcome.inPlay (PlayOutcome.new BaseOutcome.forceOut BaseOutcome.forceOut
      BaseOutcome.forceOut HomeOutcome.none))
    InningHalf.top ⟨0⟩ rfl rfl
  have h2 := h.2 (by
    rintro (⟨h1, -, -⟩ | ⟨h1, -, -⟩ | ⟨⟨n, h1⟩, -, -⟩) <;> simp [Game.new] at h1)
  exact ⟨h2.1, (h2.2.1 rfl).1, (h2.2.1 rfl).2⟩

/-- Whenever the ending predicate holds at an `InningEnd` moment, the
folded score is not a tie. -/
theorem Game.should_end_true_not_tied (g1 : Game) (h : InningHalf)
    (hst : g1.state = GameState.inningEnd h)
    (hend : g1.should_end_game 0 = true) :
    g1.score.away ≠ g1.score.home := by
  cases hinn : g1.current_inning <;> cases h <;>
    simp [Game.should_end_game, hinn, hst] at hend <;> omega

/-- One-step soundness: from any state satisfying the invariant, `advance`
never hits the modelled panic, preserves the invariant on in-progress
results, and on completion produces an untied score whose winner matches
its sign. -/
theorem Game.advance_preserves_inv (g : Game) (hinv : GameInv g) (p : PitchOutcome) :
    ∃ r, g.advance p = some r ∧
      (∀ g1, r = GameResult.inProgress g1 → GameInv g1) ∧
      (∀ s, r = GameResult.complete s →
        s.final_score.away ≠ s.final_score.home ∧
        (s.winner = GameWinner.home ↔ s.final_score.away < s.final_score.home) ∧
        (s.winner = GameWinner.away ↔ s.final_score.home < s.final_score.away)) := by
  obtain ⟨⟨h, hstate⟩, hbound⟩ := hinv
  cases hha : g.current_half_inning.advance p with
  | inProgress hi =>
    by_cases hcond : (({ g with current_half_inning := hi } : Game).is_bottom_of_ninth
        && ({ g with current_half_inning := hi } : Game).should_end_game hi.runs_scored)
          = true
    · have hcopy := hcond
      rw [Bool.and_eq_true] at hcopy
      obtain ⟨hibn, hseg⟩ := hcopy
      rw [Game.is_bottom_of_ninth, Bool.and_eq_true, decide_eq_true_eq] at hibn
      obtain ⟨h1, h2⟩ := hibn
      have hninth : g.current_inning = InningNumber.ninth := h1
      have hbot : g.state = GameState.inning InningHalf.bottom := by
        have h2c : GameState.is_bottom g.state = true := h2
        rw [hstate] at h2c
        cases h with
        | top => simp [GameState.is_bottom] at h2c
        | bottom => exact hstate
      have hlt : g.score.away < g.score.home + hi.runs_scored := by
        have hsegc : ({ g with current_half_inning := hi } : Game).should_end_game
            hi.runs_scored = true := hseg
        simp [Game.should_end_game, hninth, hbot] at hsegc
        exact hsegc
      have hg2 : ({ g with current_half_inning := hi } : Game).complete_half_inning
          hi.runs_scored
          = { g with current_half_inning := hi,
                     score := GameScore.mk g.score.away (g.score.home + hi.runs_scored),
                     state := GameState.inningEnd InningHalf.bottom } := by
        simp [Game.complete_half_inning, hbot, GameScore.add_home_runs]
      have hstep : g.advance p
          = ({ g with current_half_inning := hi,
                      score := GameScore.mk g.score.away (g.score.home + hi.runs_scored),
                      state := GameState.inningEnd InningHalf.bottom } : Game).finalize := by
        simp only [Game.advance, hha, hcond, if_true]
        rw [hg2]
      obtain ⟨w, hw, hwh, hwa⟩ := Game.finalize_sound
        ({ g with current_half_inning := hi,
                  score := GameScore.mk g.score.away (g.score.home + hi.runs_scored),
                  state := GameState.inningEnd InningHalf.bottom } : Game) (by simp; omega)
      refine ⟨_, by rw [hstep]; exact hw, ?_, ?_⟩
      · intro g1 heq
        exact absurd heq (by simp)
      · intro s heq
        cases heq
        refine ⟨?_, hwh, hwa⟩
        show g.score.away ≠ g.score.home + hi.runs_scored
        omega
    · refine ⟨GameResult.inProgress { g with current_half_inning := hi }, ?_, ?_, ?_⟩
      · simp only [Game.advance, hha]
        rw [if_neg hcond]
      · intro g1 heq
        cases heq
        refine ⟨⟨h, hstate⟩, ?_⟩
        intro hninth hbot
        have hninth' : g.current_inning = InningNumber.ninth := hninth
        have hbot' : g.state = GameState.inning InningHalf.bottom := hbot
        by_contra hgt
        push_neg at hgt
        apply hcond
        simp [Game.is_bottom_of_ninth, GameState.is_bottom, Game.should_end_game, hninth',
          hbot', hgt]
      · intro s heq
        exact absurd heq (by simp)
  | complete s =>
    have hg1state : (g.complete_half_inning s.runs_scored).state = GameState.inningEnd h := by
      cases h <;> simp [Game.complete_half_inning, hstate]
    have hg1inn : (g.complete_half_inning s.runs_scored).current_inning = g.current_inning := by
      cases h <;> simp [Game.complete_half_inning, hstate]
    by_cases hend : (g.complete_half_inning s.runs_scored).should_end_game 0 = true
    · have hne := Game.should_end_true_not_tied _ h hg1state hend
      obtain ⟨w, hw, hwh, hwa⟩ := Game.finalize_sound _ hne
      refine ⟨GameResult.complete ⟨(g.complete_half_inning s.runs_scored).score,
          (g.complete_half_inning s.runs_scored).current_inning, w⟩, ?_, ?_, ?_⟩
      · simp only [Game.advance, hha, hend, if_true]
        exact hw
      · intro g1 heq
        exact absurd heq (by simp)
      · intro s1 heq
        cases heq
        exact ⟨hne, hwh, hwa⟩
    · refine ⟨GameResult.inProgress (g.complete_half_inning s.runs_scored).start_next_half,
        ?_, ?_, ?_⟩
      · simp only [Game.advance, hha]
        rw [if_neg hend]
      · intro g1 heq
        cases heq
        cases h with
        | top =>
          have host : (g.complete_half_inning s.runs_scored).start_next_half.state
              = GameState.inning InningHalf.bottom := by
            simp [Game.start_next_half, hg1state]
          have hoinn : (g.complete_half_inning s.runs_scored).start_next_half.current_inning
              = g.current_inning := by
            simp [Game.start_next_half, hg1state, hg1inn]
          have hosc : (g.complete_half_inning s.runs_scored).start_next_half.score
              = (g.complete_half_inning s.runs_scored).score := by
            simp [Game.start_next_half, hg1state]
          have hhir : (g.complete_half_inning
              s.runs_scored).start_next_half.current_half_inning.runs_scored = 0 := by
            simp [Game.start_next_half, hg1state, HalfInning.new]
          refine ⟨⟨InningHalf.bottom, host⟩, ?_⟩
          intro hninth _
          rw [hosc, hhir]
          have hninth' : g.current_inning = InningNumber.ninth := by
            rw [← hoinn]; exact hninth
          have hnl : ¬ ((g.complete_half_inning s.runs_scored).score.away
              < (g.complete_half_inning s.runs_scored).score.home) := by
            intro hlt
            apply hend
            simp [Game.should_end_game, hg1inn, hninth', hg1state, hlt]
          omega
        | bottom =>
          have host : (g.complete_half_inning s.runs_scored).start_next_half.state
              = GameState.inning InningHalf.top := by
            simp [Game.start_next_half, hg1state]
          refine ⟨⟨InningHalf.top, host⟩, ?_⟩
          intro _ hbot
          rw [host] at hbot
          exact absurd hbot (by simp)
      · intro s1 heq
        exact absurd heq (by simp)

/-- Running any pitch sequence from a result whose in-progress states
satisfy the invariant yields a result whose in-progress states satisfy the
invariant. -/
theorem runPitches_preserves_inv (ps : List PitchOutcome) :
    ∀ r r1 : GameResult, runPitches r ps = some r1 →
      (∀ g, r = GameResult.inProgress g → GameInv g) →
      (∀ g, r1 = GameResult.inProgress g → GameInv g) := by
  induction ps with
  | nil =>
    intro r r1 hrun hr
    injection hrun with hrr
    exact hrr ▸ hr
  | cons p ps ih =>
    intro r r1 hrun hr
    cases r with
    | complete s =>
      simp only [runPitches, GameResult.advance] at hrun
      exact ih _ _ hrun (by intro g heq; exact absurd heq (by simp))
    | inProgress g0 =>
      obtain ⟨r2, hadv, hpres, -⟩ := Game.advance_preserves_inv g0 (hr g0 rfl) p
      have hrun2 : runPitches r2 ps = some r1 := by
        simpa only [runPitches, GameResult.advance, hadv] using hrun
      exact ih _ _ hrun2 hpres

/-- Every reachable in-progress game satisfies the invariant. -/
theorem Game.reachable_inv (g : Game) (hg : g.Reachable) : GameInv g := by
  obtain ⟨ps, hps⟩ := hg
  refine runPitches_preserves_inv ps _ _ hps ?_ g rfl
  intro g0 heq
  injection heq with hg0
  subst hg0
  exact ⟨⟨InningHalf.top, rfl⟩, by intro hn; exact absurd hn (by decide)⟩

/-- C4 counterexample: a reachable in-progress game in the bottom of the
tenth inning where the home team leads counting the half's pending run —
the extra-inning walk-off is not short-circuited, so the claim's "or of
any extra inning" part fails. -/
theorem extra_inning_lead_stays_in_progress :
    ∃ g : Game, g.Reachable ∧ g.current_inning = InningNumber.extra 10 ∧
      g.state = GameState.inning InningHalf.bottom ∧
      g.score.away < g.score.home + g.current_half_inning.runs_scored := by
  refine ⟨Game.mk (InningNumber.extra 10) (GameState.inning InningHalf.bottom)
      (GameScore.mk 0 0)
      (HalfInning.mk InningHalf.bottom Outs.zero BattingPosition.second PlateAppearance.new 1
        BaserunnerState.new)
      BattingPosition.first BattingPosition.first,
    ⟨List.replicate 57 (PitchOutcome.inPlay PlayOutcome.groundout) ++ [PitchOutcome.homeRun],
      ?_⟩, rfl, rfl, ?_⟩
  · decide
  · decide

/-- C4 amended: restricted to the ninth inning the claim holds — no
reachable in-progress game in the bottom of the ninth ever has the home
score plus the half's pending runs strictly above the away score (the
walk-off short-circuit fires first); in extra innings the engine provides
no such guarantee. -/
theorem bottom_ninth_home_never_ahead_in_progress (g : Game) (hg : g.Reachable)
    (hninth : g.current_inning = InningNumber.ninth)
    (hbot : g.state = GameState.inning InningHalf.bottom) :
    g.score.home + g.current_half_inning.runs_scored ≤ g.score.away :=
  (Game.reachable_inv g hg).2 hninth hbot

/-- C4 witness: the game reached by three groundouts in each of the
seventeen half-innings through the top of the ninth sits in the bottom of
the ninth tied 0-0, where the bound holds. -/
theorem bottom_ninth_home_never_ahead_witness :
    (Game.mk InningNumber.ninth (GameState.inning InningHalf.bottom) (GameScore.mk 0 0)
      (HalfInning.mk InningHalf.bottom Outs.zero BattingPosition.first PlateAppearance.new 0
        BaserunnerState.new)
      BattingPosition.first BattingPosition.first).score.home
      + (Game.mk InningNumber.ninth (GameState.inning InningHalf.bottom) (GameScore.mk 0 0)
          (HalfInning.mk InningHalf.bottom Outs.zero BattingPosition.first PlateAppearance.new 0
            BaserunnerState.new)
          BattingPosition.first BattingPosition.first).current_half_inning.runs_scored
      ≤ (Game.mk InningNumber.ninth (GameState.inning InningHalf.bottom) (GameScore.mk 0 0)
          (HalfInning.mk InningHalf.bottom Outs.zero BattingPosition.first PlateAppearance.new 0
            BaserunnerState.new)
          BattingPosition.first BattingPosition.first).score.away :=
  bottom_ninth_home_never_ahead_in_progress _
    ⟨List.replicate 51 (PitchOutcome.inPlay PlayOutcome.groundout), by decide⟩ rfl rfl

/-- C9: from any reachable game, `advance` never hits the winner-lookup
panic, and whenever it returns a completed summary the final scores are
unequal with the winner on the strictly larger side. -/
theorem completed_game_has_strict_winner (g : Game) (hg : g.Reachable) (p : PitchOutcome) :
    ∃ r, g.advance p = some r ∧
      ∀ s, r = GameResult.complete s →
        s.final_score.away ≠ s.final_score.home ∧
        (s.winner = GameWinner.home ↔ s.final_score.away < s.final_score.home) ∧
        (s.winner = GameWinner.away ↔ s.final_score.home < s.final_score.away) := by
  obtain ⟨r, hr, -, hc⟩ := Game.advance_preserves_inv g (Game.reachable_inv g hg) p
  exact ⟨r, hr, hc⟩

/-- C9 witness: the fresh game is reachable by the empty pitch sequence,
and a first strike advances it without any panic. -/
theorem completed_game_has_strict_winner_witness :
    ∃ r, Game.new.advance PitchOutcome.strike = some r ∧
      ∀ s, r = GameResult.complete s →
        s.final_score.away ≠ s.final_score.home ∧
        (s.winner = GameWinner.home ↔ s.final_score.away < s.final_score.home) ∧
        (s.winner = GameWinner.away ↔ s.final_score.home < s.final_score.away) :=
  completed_game_has_strict_winner Game.new ⟨[], rfl⟩ PitchOutcome.strike
